import Mathlib

/-!
Verification development for the node-ledger and quota-manager core of the
multi-cluster-app-dispatcher repository.

The node ledger (`NodeInfo`) is embedded from
`pkg/controller/clusterstate/api/node_info.go`; the quota manager from the
`quotamanager` package file.  The `Resource` arithmetic type and a handful of
small utilities (`CreateId`, `ParseId`, the backend's consumer constructor)
live outside the provided sources and are modelled from the specification;
each such definition carries a doc comment saying so.
-/

/-- Modelled from the spec: the multi-dimensional resource quantity
(`clusterstateapi.Resource`, not among the provided sources) with its three
dimensions: compute (milli-CPU), memory (bytes) and accelerator (GPU) count.
Fractional dimensions are rationals, the accelerator count is an integer. -/
structure Resource where
  MilliCPU : ℚ
  Memory   : ℚ
  GPU      : ℤ
deriving DecidableEq, Repr

/-- Modelled from the spec: the all-zero resource vector (`EmptyResource`). -/
def EmptyResource : Resource := { MilliCPU := 0, Memory := 0, GPU := 0 }

/-- Modelled from the spec: componentwise sum (`Resource.Add`); always succeeds. -/
def Resource.add (r rr : Resource) : Resource :=
  { MilliCPU := r.MilliCPU + rr.MilliCPU
    Memory := r.Memory + rr.Memory
    GPU := r.GPU + rr.GPU }

/-- Modelled from the spec: componentwise difference (`Resource.Sub`).  Per
spec §9 the mutation applies the raw (possibly negative) difference; the
underflow condition is signalled separately by `Resource.subUnderflows` and is
only logged by the callers in this repository. -/
def Resource.sub (r rr : Resource) : Resource :=
  { MilliCPU := r.MilliCPU - rr.MilliCPU
    Memory := r.Memory - rr.Memory
    GPU := r.GPU - rr.GPU }

/-- Modelled from the spec: the underflow signal of `Resource.Sub` — true when
some dimension of the difference would go negative. -/
def Resource.subUnderflows (r rr : Resource) : Bool :=
  r.MilliCPU < rr.MilliCPU || r.Memory < rr.Memory || r.GPU < rr.GPU

/-- Task lifecycle status (`TaskStatus`); only the releasing / non-releasing
distinction affects ledger accounting. -/
inductive TaskStatus where
  | Pending
  | Running
  | Bound
  | Releasing
deriving DecidableEq, Repr

/-- Snapshot of one workload instance (`TaskInfo`): namespace, name, resource
request and lifecycle status.  `Clone` in the source produces a private value
copy; in this pure embedding values are immutable, so cloning is the identity. -/
structure TaskInfo where
  Namespace : String
  Name      : String
  Resreq    : Resource
  Status    : TaskStatus
deriving DecidableEq, Repr

/-- Value-copy of a task (`TaskInfo.Clone`): in a pure embedding the copy is
the value itself. -/
def TaskInfo.clone (t : TaskInfo) : TaskInfo := t

/-- Task key as built by `PodKey`: the `namespace/name` string of the task's pod. -/
def PodKey (t : TaskInfo) : String := t.Namespace ++ "/" ++ t.Name

/-- Declared state of a cluster node (the `v1.Node` fields read by the ledger):
name, allocatable and capacity resource declarations, labels, unschedulable
flag and taints (taints abstracted to strings; the ledger only stores them). -/
structure NodeSpec where
  Name          : String
  Allocatable   : Resource
  Capacity      : Resource
  Labels        : List (String × String)
  Unschedulable : Bool
  Taints        : List String
deriving DecidableEq, Repr

/-- Node-level aggregated information (`NodeInfo`).  The task map is an
association list keyed by `PodKey`; a Go map never holds a duplicate key, and
all operations below use first-match lookup and erase. -/
structure NodeInfo where
  Name          : String
  Node          : Option NodeSpec
  Releasing     : Resource
  Idle          : Resource
  Used          : Resource
  Allocatable   : Resource
  Capability    : Resource
  Labels        : List (String × String)
  Unschedulable : Bool
  Taints        : List String
  Tasks         : List (String × TaskInfo)
deriving DecidableEq, Repr

/-- Constructor `NewNodeInfo`: a nil node yields an unbound placeholder with
inert pools; a real node yields a bound ledger with `Idle = Allocatable`. -/
def NewNodeInfo (node : Option NodeSpec) : NodeInfo :=
  match node with
  | none =>
    { Name := ""
      Node := none
      Releasing := EmptyResource
      Idle := EmptyResource
      Used := EmptyResource
      Allocatable := EmptyResource
      Capability := EmptyResource
      Labels := []
      Unschedulable := false
      Taints := []
      Tasks := [] }
  | some n =>
    { Name := n.Name
      Node := some n
      Releasing := EmptyResource
      Idle := n.Allocatable
      Used := EmptyResource
      Allocatable := n.Allocatable
      Capability := n.Capacity
      Labels := n.Labels
      Unschedulable := n.Unschedulable
      Taints := n.Taints
      Tasks := [] }

/-- Binding a node (`NodeInfo.SetNode`).  On the unbound-to-bound transition
the pools are retroactively reconciled from the tracked tasks; in every case
the declared node fields are installed. -/
def NodeInfo.setNode (ni : NodeInfo) (node : NodeSpec) : NodeInfo :=
  let ni :=
    match ni.Node with
    | none =>
      let ni := { ni with Idle := node.Allocatable }
      ni.Tasks.foldl (fun (acc : NodeInfo) (kv : String × TaskInfo) =>
        let task := kv.2
        let acc :=
          if task.Status = TaskStatus.Releasing then
            { acc with Releasing := acc.Releasing.add task.Resreq }
          else acc
        let acc := { acc with Idle := acc.Idle.sub task.Resreq }
        { acc with Used := acc.Used.add task.Resreq }) ni
    | some _ => ni
  { ni with
      Name := node.Name
      Node := some node
      Allocatable := node.Allocatable
      Capability := node.Capacity
      Labels := node.Labels
      Unschedulable := node.Unschedulable
      Taints := node.Taints }

/-- Adding a task (`NodeInfo.AddTask`).  Returns the ledger state after the
call together with the returned error, if any. -/
def NodeInfo.addTask (ni : NodeInfo) (task : TaskInfo) : NodeInfo × Option String :=
  let key := PodKey task
  if (ni.Tasks.lookup key).isSome then
    (ni, some s!"task <{task.Namespace}/{task.Name}> already on node <{ni.Name}>")
  else
    let ti := task.clone
    let ni :=
      match ni.Node with
      | some _ =>
        let ni :=
          if ti.Status = TaskStatus.Releasing then
            { ni with Releasing := ni.Releasing.add ti.Resreq }
          else ni
        let ni := { ni with Idle := ni.Idle.sub ti.Resreq }
        { ni with Used := ni.Used.add ti.Resreq }
      | none => ni
    ({ ni with Tasks := (key, ti) :: ni.Tasks }, none)

/-- Pipelining a task (`NodeInfo.PipelineTask`): same duplicate check and
store as `addTask`, but when bound it reclaims from `Releasing` and charges
`Used`, never touching `Idle`. -/
def NodeInfo.pipelineTask (ni : NodeInfo) (task : TaskInfo) : NodeInfo × Option String :=
  let key := PodKey task
  if (ni.Tasks.lookup key).isSome then
    (ni, some s!"task <{task.Namespace}/{task.Name}> already on node <{ni.Name}>")
  else
    let ti := task.clone
    let ni :=
      match ni.Node with
      | some _ =>
        let ni := { ni with Releasing := ni.Releasing.sub ti.Resreq }
        { ni with Used := ni.Used.add ti.Resreq }
      | none => ni
    ({ ni with Tasks := (key, ti) :: ni.Tasks }, none)

/-- Removing a task (`NodeInfo.RemoveTask`).  The pool updates use the stored
record, not the caller's argument. -/
def NodeInfo.removeTask (ni : NodeInfo) (ti : TaskInfo) : NodeInfo × Option String :=
  let key := PodKey ti
  match ni.Tasks.lookup key with
  | none =>
    (ni, some s!"failed to find task <{ti.Namespace}/{ti.Name}> on host <{ni.Name}>")
  | some task =>
    let ni :=
      match ni.Node with
      | some _ =>
        let ni :=
          if task.Status = TaskStatus.Releasing then
            { ni with Releasing := ni.Releasing.sub task.Resreq }
          else ni
        let ni := { ni with Idle := ni.Idle.add task.Resreq }
        { ni with Used := ni.Used.sub task.Resreq }
      | none => ni
    ({ ni with Tasks := ni.Tasks.eraseP (fun kv => kv.1 == key) }, none)

/-- Updating a task (`NodeInfo.UpdateTask`): remove then re-add the new
snapshot; an error from the removal aborts the call. -/
def NodeInfo.updateTask (ni : NodeInfo) (ti : TaskInfo) : NodeInfo × Option String :=
  match ni.removeTask ti with
  | (ni2, some e) => (ni2, some e)
  | (ni2, none) => ni2.addTask ti

/-- One ledger call, for reasoning about sequences of calls. -/
inductive LedgerOp where
  | add (t : TaskInfo)
  | remove (t : TaskInfo)
  | update (t : TaskInfo)
  | bind (n : NodeSpec)
deriving Repr

/-- State after one completed ledger call (a failed call leaves the state as
the source methods do: unchanged). -/
def runOp (ni : NodeInfo) : LedgerOp → NodeInfo
  | LedgerOp.add t => (ni.addTask t).1
  | LedgerOp.remove t => (ni.removeTask t).1
  | LedgerOp.update t => (ni.updateTask t).1
  | LedgerOp.bind n => ni.setNode n

/-- State after a sequence of ledger calls. -/
def runOps (ni : NodeInfo) (ops : List LedgerOp) : NodeInfo :=
  ops.foldl runOp ni

/-- The conservation invariant of a bound ledger: `Idle + Used = Allocatable`. -/
def boundInvariant (ni : NodeInfo) : Prop :=
  ni.Idle.add ni.Used = ni.Allocatable

instance (ni : NodeInfo) : Decidable (boundInvariant ni) := by
  unfold boundInvariant; infer_instance

/-- Side condition under which a ledger call preserves the conservation
invariant: a rebind must supply a node whose allocatable declaration matches
the ledger's current one. -/
def opOk (ni : NodeInfo) : LedgerOp → Prop
  | LedgerOp.bind n => n.Allocatable = ni.Allocatable
  | _ => True

/-- The side condition, threaded along a sequence of calls. -/
def opsOk : NodeInfo → List LedgerOp → Prop
  | _, [] => True
  | ni, op :: rest => opOk ni op ∧ opsOk (runOp ni op) rest

instance (ni : NodeInfo) (op : LedgerOp) : Decidable (opOk ni op) := by
  cases op <;> unfold opOk <;> infer_instance

instance opsOkDecidable (ni : NodeInfo) (ops : List LedgerOp) : Decidable (opsOk ni ops) :=
  match ops with
  | [] => by unfold opsOk; infer_instance
  | op :: rest => by
    unfold opsOk
    have := opsOkDecidable (runOp ni op) rest
    infer_instance

/-!
Quota-manager embedding (the `quotamanager` package source).  The quota
backend (`qmbackend.Manager`) is an external collaborator consumed as a black
box; it is embedded as a record of oracles for the contract calls the manager
makes, so every theorem below quantifies over all backend behaviours.
-/

/-- Quota Manager forest name constant. -/
def QuotaManagerForestName : String := "MCAD-CONTROLLER-FOREST"

/-- Platform maximum representable integer, `int(^uint(0) >> 1)` on the
64-bit platform: `2^63 - 1`. -/
def MaxInt : ℤ := 9223372036854775807

/-- Go's `int(math.Trunc(q))`: truncation of a rational toward zero. -/
def truncQ (q : ℚ) : ℤ :=
  if 0 ≤ q.num then ((q.num.toNat / q.den : ℕ) : ℤ)
  else -(((-q.num).toNat / q.den : ℕ) : ℤ)

/-- Test whether the first character list is an initial segment of the
second. -/
def leadsWith : List Char → List Char → Bool
  | [], _ => true
  | _ :: _, [] => false
  | a :: as, b :: bs => a == b && leadsWith as bs

/-- Substring containment on character lists. -/
def containsChars (sub : List Char) : List Char → Bool
  | [] => leadsWith sub []
  | c :: cs => leadsWith sub (c :: cs) || containsChars sub cs

/-- Go's `strings.Contains`, as substring containment over the character
lists of the two strings. -/
def containsSubstring (s sub : String) : Bool :=
  containsChars sub.data s.data

/-- Go's `strings.ToLower`, as a characterwise lowering of the string. -/
def toLowerString (s : String) : String :=
  String.mk (s.data.map Char.toLower)

/-- Backend operating mode (`qmbackend` modes used here). -/
inductive Mode where
  | Normal
  | Maintenance
deriving DecidableEq, Repr, BEq

/-- Allocation response of the backend (`AllocateForest` result): fit
decision, informational message and preempted consumer ids. -/
structure AllocResponse where
  allocated : Bool
  message : String
  preemptedIds : List String
deriving DecidableEq, Repr

/-- The quota backend, embedded as oracles for the contract calls the manager
makes: mode, tree names, per-tree resource-type cache, allocation outcome,
deallocation outcome and consumer-removal outcome. -/
structure Backend where
  mode : Mode
  treeNames : List String
  treeCache : String → List String
  allocateForestResponse : String → String → AllocResponse
  allocateForestError : String → String → Option String
  deAllocateForestResult : String → String → Bool
  removeConsumerResult : String → Bool × Option String

/-- The fields of an AppWrapper job read by the quota manager: namespace,
name, labels and priority. -/
structure AppWrapper where
  Namespace : String
  Name : String
  labels : List (String × String)
  priority : ℤ
deriving DecidableEq, Repr

/-- The quota-manager facade (`QuotaManager` struct): job lister oracle,
preemption flag, optional attached backend, resource-plan change flag and the
initialization-complete marker. -/
structure QuotaManager where
  appwrapperLister : String → String → Option AppWrapper
  preemptionEnabled : Bool
  quotaManagerBackend : Option Backend
  resplanChanged : Bool
  initializationDone : Bool

/-- One quota-tree membership derived from a job label (`QuotaGroup`). -/
structure QuotaGroup where
  GroupContext : String
  GroupId : String
deriving DecidableEq, Repr

/-- Modelled from the spec: `util.CreateId` (not among the provided sources)
forms the job id `namespace/name`, empty when either part is empty. -/
def CreateId (ns n : String) : String :=
  if ns.length > 0 && n.length > 0 then ns ++ "/" ++ n else ""

/-- Modelled from the spec: `util.ParseId` (not among the provided sources)
splits a `namespace/name` id back into its pair, yielding empty strings when
the id is not of that shape. -/
def ParseId (id : String) : String × String :=
  match id.splitOn "/" with
  | [a, b] => (a, b)
  | _ => ("", "")

/-- Membership test of a label-derived group against the known tree ids
(`isValidQuota`). -/
def isValidQuota (quotaGroup : QuotaGroup) (qmTreeIDs : List String) : Bool :=
  qmTreeIDs.any (fun treeNodeID => treeNodeID == quotaGroup.GroupContext)

/-- Label-to-tree designation (`getQuotaDesignation`): collects the job's
valid quota groups and per-tree resource types, and fails with a message
naming the missing trees when the groups do not cover every known tree. -/
def getQuotaDesignation (b : Backend) (aw : AppWrapper) :
    List QuotaGroup × List (String × List String) × Option String :=
  let qmTreeIDs := b.treeNames
  if qmTreeIDs.length ≤ 0 then
    ([], [], none)
  else
    let validLabels := aw.labels.filter
      (fun kv => isValidQuota { GroupContext := kv.1, GroupId := kv.2 } qmTreeIDs)
    let groups : List QuotaGroup :=
      validLabels.map (fun kv => { GroupContext := kv.1, GroupId := kv.2 })
    let treeNameToResourceTypes : List (String × List String) :=
      validLabels.map (fun kv => (kv.1, b.treeCache kv.1))
    if groups.length < qmTreeIDs.length then
      let missing := qmTreeIDs.filter
        (fun treeName => !(groups.any (fun g => g.GroupContext == treeName)))
      let allocationMessage :=
        "Missing required quota designation: " ++ String.intercalate ", " missing
      let err :=
        if allocationMessage.length > 0 then allocationMessage ++ "."
        else "Unknown error verifying quota designations."
      (groups, treeNameToResourceTypes, some err)
    else
      (groups, treeNameToResourceTypes, none)

/-- Conversion of an integer demand (`convertInt64Demand`): clamps to
`MaxInt` with an overflow diagnostic, passes smaller values through. -/
def convertInt64Demand (int64Demand : ℤ) : ℤ × Option String :=
  if int64Demand > MaxInt then
    (MaxInt, some ("demand " ++ toString int64Demand ++
      " is larger than Max Quota Management Backend size, resetting demand to " ++
      toString MaxInt))
  else
    (int64Demand, none)

/-- Conversion of a fractional demand (`convertFloat64Demand`): clamps to
`MaxInt` with an overflow diagnostic, truncates smaller values to integer. -/
def convertFloat64Demand (floatDemand : ℚ) : ℤ × Option String :=
  if floatDemand > (MaxInt : ℚ) then
    (MaxInt, some ("demand " ++ toString floatDemand ++
      " is larger than Max Quota Management Backend size, resetting demand to " ++
      toString MaxInt))
  else
    (truncQ floatDemand, none)

/-- Go map assignment `m[k] = v` on an association-list map: replace the
binding when present, append it otherwise. -/
def mapInsert (m : List (String × ℤ)) (k : String) (v : ℤ) : List (String × ℤ) :=
  if m.any (fun p => p.1 == k) then
    m.map (fun p => if p.1 == k then (k, v) else p)
  else
    m ++ [(k, v)]

/-- Go's `%v` rendering of a string slice, used in the mismatch diagnostic. -/
def goStringsV (l : List String) : String :=
  "[" ++ String.intercalate " " l ++ "]"

/-- Error accumulation used by the demand builder: first error plain, later
ones chained with a `next error` separator. -/
def chainErr (err : Option String) (newErr : String) : Option String :=
  match err with
  | none => some newErr
  | some e => some (e ++ "; next error " ++ newErr)

/-- Per-tree demand construction (`getQuotaTreeResourceTypesDemands`): each
declared resource type whose lowercased name contains `cpu`, `memory` or
`gpu` receives the corresponding converted demand (memory in units of
1,000,000 bytes); conversion diagnostics accumulate, and a resource type
matched by no rule is reported as a count mismatch. -/
def getQuotaTreeResourceTypesDemands (awResDemands : Resource)
    (treeToResourceTypes : List String) : List (String × ℤ) × Option String :=
  let step := treeToResourceTypes.foldl
    (fun (acc : List (String × ℤ) × Option String × List String) treeResourceType =>
      let demands := acc.1
      let err := acc.2.1
      let processed := acc.2.2
      let acc :=
        if containsSubstring (toLowerString treeResourceType) "cpu" then
          let conv := convertFloat64Demand awResDemands.MilliCPU
          let err :=
            match conv.2 with
            | some ce => chainErr err ("resource type: " ++ treeResourceType ++ " " ++ ce)
            | none => err
          (mapInsert demands treeResourceType conv.1, err, processed ++ [treeResourceType])
        else (demands, err, processed)
      let demands := acc.1
      let err := acc.2.1
      let processed := acc.2.2
      let acc :=
        if containsSubstring (toLowerString treeResourceType) "memory" then
          let conv := convertFloat64Demand (awResDemands.Memory / 1000000)
          let err :=
            match conv.2 with
            | some ce => chainErr err ("resource type: " ++ treeResourceType ++ " " ++ ce)
            | none => err
          (mapInsert demands treeResourceType conv.1, err, processed ++ [treeResourceType])
        else (demands, err, processed)
      let demands := acc.1
      let err := acc.2.1
      let processed := acc.2.2
      if containsSubstring (toLowerString treeResourceType) "gpu" then
        let conv := convertInt64Demand awResDemands.GPU
        let err :=
          match conv.2 with
          | some ce => chainErr err ("resource type: " ++ treeResourceType ++ " " ++ ce)
          | none => err
        (mapInsert demands treeResourceType conv.1, err, processed ++ [treeResourceType])
      else (demands, err, processed))
    ([], none, [])
  let demands := step.1
  let err := step.2.1
  let processed := step.2.2
  let err :=
    if processed.length < treeToResourceTypes.length then
      chainErr err ("resource type processed " ++ goStringsV processed ++
        " less than expected " ++ goStringsV treeToResourceTypes)
    else err
  (demands, err)

/-- Per-tree consumer sub-request (`JConsumerTreeSpec`). -/
structure JConsumerTreeSpec where
  ID : String
  TreeName : String
  GroupID : String
  Request : List (String × ℤ)
  Priority : ℤ
  CType : ℤ
  UnPreemptable : Bool
deriving DecidableEq, Repr

/-- Whole-consumer request spec (`JConsumerSpec`). -/
structure JConsumerSpec where
  ID : String
  Trees : List JConsumerTreeSpec
deriving DecidableEq, Repr

/-- JSON consumer (`JConsumer`). -/
structure JConsumer where
  Kind : String
  Spec : JConsumerSpec
deriving DecidableEq, Repr

/-- Default consumer kind constant of the backend utilities. -/
def DefaultConsumerKind : String := "Consumer"

/-- Backend consumer-info wrapper (`qmbackend.ConsumerInfo`). -/
structure ConsumerInfo where
  consumer : JConsumer
deriving DecidableEq, Repr

/-- Modelled from the spec: the backend's consumer constructor
(`qmbackend.NewConsumerInfo`, external collaborator) wraps the JSON consumer. -/
def NewConsumerInfo (c : JConsumer) : Option ConsumerInfo × Option String :=
  (some { consumer := c }, none)

/-- Consumer id accessor (`ConsumerInfo.GetID`). -/
def ConsumerInfo.getID (ci : ConsumerInfo) : String := ci.consumer.Spec.ID

/-- Assoc-list read with Go's zero value for a missing key, for the
`treeNameToResourceTypes` map. -/
def lookupTreeTypes (m : List (String × List String)) (k : String) : List String :=
  (m.lookup k).getD []

/-- Construction of the quota allocation request (`buildRequest`): validates
the job id, derives tree designations, and assembles one sub-request per
designated tree; a demand-construction error is logged but not fatal. -/
def buildRequest (qm : QuotaManager) (b : Backend) (aw : AppWrapper)
    (awResDemands : Resource) : Option ConsumerInfo × Option String :=
  let awId := CreateId aw.Namespace aw.Name
  if awId.length ≤ 0 then
    (none, some ("[buildRequest] Request failed due to invalid AppWrapper due to empty namespace: " ++
      aw.Namespace ++ " or name:" ++ aw.Name ++ "."))
  else
    match getQuotaDesignation b aw with
    | (_, _, some err) => (none, some err)
    | (quotaTreeDesignations, treeNameToResourceTypes, none) =>
      let consumerTrees := quotaTreeDesignations.map (fun quotaTreeDesignation =>
        let unPreemptable := !qm.preemptionEnabled
        let quotaTreeName := quotaTreeDesignation.GroupContext
        let demandsPair := getQuotaTreeResourceTypesDemands awResDemands
          (lookupTreeTypes treeNameToResourceTypes quotaTreeName)
        { ID := awId
          TreeName := quotaTreeDesignation.GroupContext
          GroupID := quotaTreeDesignation.GroupId
          Request := demandsPair.1
          Priority := aw.priority
          CType := 0
          UnPreemptable := unPreemptable : JConsumerTreeSpec })
      let consumerSpec : JConsumerSpec := { ID := awId, Trees := consumerTrees }
      let consumer : JConsumer := { Kind := DefaultConsumerKind, Spec := consumerSpec }
      NewConsumerInfo consumer

/-- Resolution of preempted consumer ids to live jobs (`getAppWrappers`):
ids that fail to parse or to resolve through the lister are skipped. -/
def getAppWrappers (qm : QuotaManager) (preemptIds : List String) : List AppWrapper :=
  if preemptIds.length ≤ 0 then []
  else
    preemptIds.foldl (fun (aws : List AppWrapper) preemptId =>
      let parsed := ParseId preemptId
      if parsed.1.length ≤ 0 || parsed.2.length ≤ 0 then aws
      else
        match qm.appwrapperLister parsed.1 parsed.2 with
        | none => aws
        | some aw => aws ++ [aw]) []

/-- Admission path of `Fits` past the backend-missing and maintenance gates:
optional plan refresh (which only updates the backend cache and never the
decision), request construction, consumer registration and forest
allocation. -/
def fitsMain (qm : QuotaManager) (b : Backend) (aw : AppWrapper)
    (awResDemands : Resource) : Bool × List AppWrapper × String :=
  match buildRequest qm b aw awResDemands with
  | (_, some err) => (false, [], err)
  | (consumerOpt, none) =>
    match consumerOpt with
    | none => (false, [], "")
    | some consumerInfo =>
      let consumerID := consumerInfo.getID
      let allocResponse := b.allocateForestResponse QuotaManagerForestName consumerID
      match b.allocateForestError QuotaManagerForestName consumerID with
      | some e =>
        if allocResponse.message.length > 0 then (false, [], allocResponse.message)
        else (false, [], e)
      | none =>
        let doesFit := allocResponse.allocated
        let preemptIds := getAppWrappers qm allocResponse.preemptedIds
        (doesFit, preemptIds, allocResponse.message)

/-- Admission decision (`Fits`): deny when no backend is attached; deny when
the backend is in maintenance mode after initialization completed; otherwise
run the normal admission path.  The empty preemption list embeds Go's nil
slice. -/
def Fits (qm : QuotaManager) (aw : AppWrapper) (awResDemands : Resource)
    (_proposedPreemptions : List AppWrapper) : Bool × List AppWrapper × String :=
  match qm.quotaManagerBackend with
  | none => (false, [], "No quota manager backend exists")
  | some b =>
    if b.mode == Mode.Maintenance && qm.initializationDone then
      (false, [], "Quota Manager backend in maintenance mode")
    else
      fitsMain qm b aw awResDemands

/-- Backend contract calls performed by `Release`, recorded as a trace so a
theorem can state which steps a call performs. -/
inductive BackendCall where
  | deAllocateForest (forestName consumerID : String)
  | removeConsumer (consumerID : String)
deriving DecidableEq, Repr

/-- Quota release (`Release`): false with no calls when no backend is
attached or the id cannot be formed; otherwise deallocates the consumer from
the forest and then removes the consumer definition, returning only the
deallocation outcome.  The second component is the trace of backend calls. -/
def Release (qm : QuotaManager) (aw : AppWrapper) : Bool × List BackendCall :=
  match qm.quotaManagerBackend with
  | none => (false, [])
  | some b =>
    let awId := CreateId aw.Namespace aw.Name
    if awId.length ≤ 0 then (false, [])
    else
      let released := b.deAllocateForestResult QuotaManagerForestName awId
      let removeOutcome := b.removeConsumerResult awId
      let _ := removeOutcome
      (released,
        [BackendCall.deAllocateForest QuotaManagerForestName awId,
         BackendCall.removeConsumer awId])

/-!
Concrete example inputs used by counterexamples and witnesses.
-/

/-- Example node with 4000 milli-CPU allocatable. -/
def exNodeA : NodeSpec :=
  { Name := "node-a"
    Allocatable := { MilliCPU := 4000, Memory := 8000000000, GPU := 0 }
    Capacity := { MilliCPU := 4000, Memory := 8000000000, GPU := 0 }
    Labels := []
    Unschedulable := false
    Taints := [] }

/-- Example node with a different allocatable declaration (5000 milli-CPU). -/
def exNodeB : NodeSpec :=
  { Name := "node-b"
    Allocatable := { MilliCPU := 5000, Memory := 8000000000, GPU := 0 }
    Capacity := { MilliCPU := 5000, Memory := 8000000000, GPU := 0 }
    Labels := []
    Unschedulable := false
    Taints := [] }

/-- Example running task requesting 1000 milli-CPU. -/
def exTask1 : TaskInfo :=
  { Namespace := "ns"
    Name := "t1"
    Resreq := { MilliCPU := 1000, Memory := 0, GPU := 0 }
    Status := TaskStatus.Running }

/-- Example releasing task requesting 500 milli-CPU. -/
def exTaskR : TaskInfo :=
  { Namespace := "ns"
    Name := "tr"
    Resreq := { MilliCPU := 500, Memory := 0, GPU := 0 }
    Status := TaskStatus.Releasing }

/-- Example backend knowing quota trees `A` and `B`, in normal mode, with a
single `cpu` resource type per tree and an always-successful allocator. -/
def exBackendAB : Backend :=
  { mode := Mode.Normal
    treeNames := ["A", "B"]
    treeCache := fun _ => ["cpu"]
    allocateForestResponse := fun _ _ => { allocated := true, message := "", preemptedIds := [] }
    allocateForestError := fun _ _ => none
    deAllocateForestResult := fun _ _ => true
    removeConsumerResult := fun _ => (true, none) }

/-- Example backend knowing only quota tree `A`. -/
def exBackendA : Backend :=
  { exBackendAB with treeNames := ["A"] }

/-- Example job labeled only for tree `A`. -/
def exAwA : AppWrapper :=
  { Namespace := "ns", Name := "job1", labels := [("A", "group1")], priority := 0 }

/-- Example quota manager attached to `exBackendAB`, past initialization. -/
def exQmAB : QuotaManager :=
  { appwrapperLister := fun _ _ => none
    preemptionEnabled := true
    quotaManagerBackend := some exBackendAB
    resplanChanged := false
    initializationDone := true }

/-- Example quota manager attached to the one-tree backend `exBackendA`. -/
def exQmA : QuotaManager :=
  { exQmAB with quotaManagerBackend := some exBackendA }

/-- Example quota manager with no attached backend. -/
def exQmNoBackend : QuotaManager :=
  { exQmAB with quotaManagerBackend := none }

/-- Example backend in maintenance mode. -/
def exBackendMaint : Backend :=
  { exBackendAB with mode := Mode.Maintenance }

/-- Example quota manager whose backend is in maintenance mode, after
initialization completed. -/
def exQmMaint : QuotaManager :=
  { exQmAB with quotaManagerBackend := some exBackendMaint }

/-- Example quota manager whose backend is in maintenance mode, still inside
the initialization / replay window. -/
def exQmMaintReplay : QuotaManager :=
  { exQmMaint with initializationDone := false }

/-- The consumer request built for `exAwA` against `exBackendA` when the
compute demand overflows: the `cpu` demand is clamped to `MaxInt`. -/
def exConsumerMax : ConsumerInfo :=
  { consumer :=
    { Kind := DefaultConsumerKind
      Spec :=
      { ID := "ns/job1"
        Trees :=
        [{ ID := "ns/job1"
           TreeName := "A"
           GroupID := "group1"
           Request := [("cpu", MaxInt)]
           Priority := 0
           CType := 0
           UnPreemptable := false }] } } }

/-!
Resource arithmetic lemmas used by the ledger proofs.
-/

theorem Resource.add_empty (r : Resource) : r.add EmptyResource = r := by
  simp [Resource.add, EmptyResource]

theorem Resource.sub_add_cancel (x r : Resource) : (x.sub r).add r = x := by
  cases x
  simp only [Resource.add, Resource.sub, Resource.mk.injEq]
  refine ⟨by ring, by ring, by ring⟩

theorem Resource.add_sub_cancel (x r : Resource) : (x.add r).sub r = x := by
  cases x
  simp only [Resource.add, Resource.sub, Resource.mk.injEq]
  refine ⟨by ring, by ring, by ring⟩

theorem Resource.sub_add_add_cancel (x y r : Resource) :
    (x.sub r).add (y.add r) = x.add y := by
  simp only [Resource.add, Resource.sub, Resource.mk.injEq]
  refine ⟨by ring, by ring, by ring⟩

theorem Resource.add_add_sub_cancel (x y r : Resource) :
    (x.add r).add (y.sub r) = x.add y := by
  simp only [Resource.add, Resource.sub, Resource.mk.injEq]
  refine ⟨by ring, by ring, by ring⟩

/-!
Shape lemmas: each ledger operation computed on the three relevant cases
(duplicate or missing key, bound, unbound).
-/

theorem NodeInfo.addTask_of_mem (ni : NodeInfo) (t : TaskInfo)
    (h : (ni.Tasks.lookup (PodKey t)).isSome = true) :
    ni.addTask t = (ni, some s!"task <{t.Namespace}/{t.Name}> already on node <{ni.Name}>") := by
  unfold NodeInfo.addTask
  simp [h]

theorem NodeInfo.addTask_of_bound (ni : NodeInfo) (t : TaskInfo) (n0 : NodeSpec)
    (hb : ni.Node = some n0) (hl : ni.Tasks.lookup (PodKey t) = none) :
    ni.addTask t =
      ({ ni with
          Releasing := if t.Status = TaskStatus.Releasing
            then ni.Releasing.add t.Resreq else ni.Releasing
          Idle := ni.Idle.sub t.Resreq
          Used := ni.Used.add t.Resreq
          Tasks := (PodKey t, t) :: ni.Tasks }, none) := by
  unfold NodeInfo.addTask
  by_cases hs : t.Status = TaskStatus.Releasing <;>
    simp [hl, hb, TaskInfo.clone, hs]

theorem NodeInfo.addTask_of_unbound (ni : NodeInfo) (t : TaskInfo)
    (hb : ni.Node = none) (hl : ni.Tasks.lookup (PodKey t) = none) :
    ni.addTask t = ({ ni with Tasks := (PodKey t, t) :: ni.Tasks }, none) := by
  unfold NodeInfo.addTask
  simp [hl, hb, TaskInfo.clone]

theorem NodeInfo.pipelineTask_of_mem (ni : NodeInfo) (t : TaskInfo)
    (h : (ni.Tasks.lookup (PodKey t)).isSome = true) :
    ni.pipelineTask t = (ni, some s!"task <{t.Namespace}/{t.Name}> already on node <{ni.Name}>") := by
  unfold NodeInfo.pipelineTask
  simp [h]

theorem NodeInfo.pipelineTask_of_bound (ni : NodeInfo) (t : TaskInfo) (n0 : NodeSpec)
    (hb : ni.Node = some n0) (hl : ni.Tasks.lookup (PodKey t) = none) :
    ni.pipelineTask t =
      ({ ni with
          Releasing := ni.Releasing.sub t.Resreq
          Used := ni.Used.add t.Resreq
          Tasks := (PodKey t, t) :: ni.Tasks }, none) := by
  unfold NodeInfo.pipelineTask
  simp [hl, hb, TaskInfo.clone]

theorem NodeInfo.pipelineTask_of_unbound (ni : NodeInfo) (t : TaskInfo)
    (hb : ni.Node = none) (hl : ni.Tasks.lookup (PodKey t) = none) :
    ni.pipelineTask t = ({ ni with Tasks := (PodKey t, t) :: ni.Tasks }, none) := by
  unfold NodeInfo.pipelineTask
  simp [hl, hb, TaskInfo.clone]

theorem NodeInfo.removeTask_of_not_mem (ni : NodeInfo) (t : TaskInfo)
    (h : ni.Tasks.lookup (PodKey t) = none) :
    ni.removeTask t = (ni, some s!"failed to find task <{t.Namespace}/{t.Name}> on host <{ni.Name}>") := by
  unfold NodeInfo.removeTask
  simp [h]

theorem NodeInfo.removeTask_of_bound (ni : NodeInfo) (t task : TaskInfo) (n0 : NodeSpec)
    (hb : ni.Node = some n0) (hl : ni.Tasks.lookup (PodKey t) = some task) :
    ni.removeTask t =
      ({ ni with
          Releasing := if task.Status = TaskStatus.Releasing
            then ni.Releasing.sub task.Resreq else ni.Releasing
          Idle := ni.Idle.add task.Resreq
          Used := ni.Used.sub task.Resreq
          Tasks := ni.Tasks.eraseP (fun kv => kv.1 == PodKey t) }, none) := by
  unfold NodeInfo.removeTask
  by_cases hs : task.Status = TaskStatus.Releasing <;>
    simp [hl, hb, hs]

theorem NodeInfo.removeTask_of_unbound (ni : NodeInfo) (t task : TaskInfo)
    (hb : ni.Node = none) (hl : ni.Tasks.lookup (PodKey t) = some task) :
    ni.removeTask t =
      ({ ni with Tasks := ni.Tasks.eraseP (fun kv => kv.1 == PodKey t) }, none) := by
  unfold NodeInfo.removeTask
  simp [hl, hb]

theorem NodeInfo.setNode_of_bound (ni : NodeInfo) (node : NodeSpec) (n0 : NodeSpec)
    (hb : ni.Node = some n0) :
    ni.setNode node =
      { ni with
          Name := node.Name
          Node := some node
          Allocatable := node.Allocatable
          Capability := node.Capacity
          Labels := node.Labels
          Unschedulable := node.Unschedulable
          Taints := node.Taints } := by
  unfold NodeInfo.setNode
  simp [hb]

/-!
Preservation of the conservation invariant by each ledger call.
-/

theorem NodeInfo.addTask_Node (ni : NodeInfo) (t : TaskInfo) :
    ((ni.addTask t).1).Node = ni.Node := by
  cases hl : ni.Tasks.lookup (PodKey t) with
  | some v =>
    rw [NodeInfo.addTask_of_mem ni t (by rw [hl]; rfl)]
  | none =>
    cases hb : ni.Node with
    | none => rw [NodeInfo.addTask_of_unbound ni t hb hl]; exact hb
    | some n0 => rw [NodeInfo.addTask_of_bound ni t n0 hb hl]; exact hb

theorem NodeInfo.addTask_inv (ni : NodeInfo) (t : TaskInfo) (h : boundInvariant ni) :
    boundInvariant (ni.addTask t).1 := by
  unfold boundInvariant at *
  cases hl : ni.Tasks.lookup (PodKey t) with
  | some v =>
    rw [NodeInfo.addTask_of_mem ni t (by rw [hl]; rfl)]
    exact h
  | none =>
    cases hb : ni.Node with
    | none => rw [NodeInfo.addTask_of_unbound ni t hb hl]; exact h
    | some n0 =>
      rw [NodeInfo.addTask_of_bound ni t n0 hb hl]
      dsimp only
      rw [Resource.sub_add_add_cancel]
      exact h

theorem NodeInfo.removeTask_Node (ni : NodeInfo) (t : TaskInfo) :
    ((ni.removeTask t).1).Node = ni.Node := by
  cases hl : ni.Tasks.lookup (PodKey t) with
  | none => rw [NodeInfo.removeTask_of_not_mem ni t hl]
  | some task =>
    cases hb : ni.Node with
    | none => rw [NodeInfo.removeTask_of_unbound ni t task hb hl]; exact hb
    | some n0 => rw [NodeInfo.removeTask_of_bound ni t task n0 hb hl]; exact hb

theorem NodeInfo.removeTask_inv (ni : NodeInfo) (t : TaskInfo) (h : boundInvariant ni) :
    boundInvariant (ni.removeTask t).1 := by
  unfold boundInvariant at *
  cases hl : ni.Tasks.lookup (PodKey t) with
  | none =>
    rw [NodeInfo.removeTask_of_not_mem ni t hl]
    exact h
  | some task =>
    cases hb : ni.Node with
    | none => rw [NodeInfo.removeTask_of_unbound ni t task hb hl]; exact h
    | some n0 =>
      rw [NodeInfo.removeTask_of_bound ni t task n0 hb hl]
      dsimp only
      rw [Resource.add_add_sub_cancel]
      exact h

theorem NodeInfo.updateTask_Node (ni : NodeInfo) (t : TaskInfo) :
    ((ni.updateTask t).1).Node = ni.Node := by
  unfold NodeInfo.updateTask
  cases hr : ni.removeTask t with
  | mk ni2 e =>
    have hn2 : ni2.Node = ni.Node := by
      have := NodeInfo.removeTask_Node ni t
      rw [hr] at this
      exact this
    cases e with
    | some msg => exact hn2
    | none =>
      dsimp only
      rw [NodeInfo.addTask_Node]
      exact hn2

theorem NodeInfo.updateTask_inv (ni : NodeInfo) (t : TaskInfo) (h : boundInvariant ni) :
    boundInvariant (ni.updateTask t).1 := by
  unfold NodeInfo.updateTask
  cases hr : ni.removeTask t with
  | mk ni2 e =>
    have h2 : boundInvariant ni2 := by
      have := NodeInfo.removeTask_inv ni t h
      rw [hr] at this
      exact this
    cases e with
    | some msg => exact h2
    | none => exact NodeInfo.addTask_inv ni2 t h2

theorem runOp_step (ni : NodeInfo) (op : LedgerOp) (hs : ni.Node.isSome = true)
    (hinv : boundInvariant ni) (hok : opOk ni op) :
    (runOp ni op).Node.isSome = true ∧ boundInvariant (runOp ni op) := by
  cases op with
  | add t =>
    refine ⟨?_, NodeInfo.addTask_inv ni t hinv⟩
    rw [runOp, NodeInfo.addTask_Node]
    exact hs
  | remove t =>
    refine ⟨?_, NodeInfo.removeTask_inv ni t hinv⟩
    rw [runOp, NodeInfo.removeTask_Node]
    exact hs
  | update t =>
    refine ⟨?_, NodeInfo.updateTask_inv ni t hinv⟩
    rw [runOp, NodeInfo.updateTask_Node]
    exact hs
  | bind n =>
    obtain ⟨n0, hb⟩ := Option.isSome_iff_exists.mp hs
    have halloc : n.Allocatable = ni.Allocatable := hok
    constructor
    · rw [runOp, NodeInfo.setNode_of_bound ni n n0 hb]
      rfl
    · rw [runOp, NodeInfo.setNode_of_bound ni n n0 hb]
      unfold boundInvariant at *
      dsimp only
      rw [halloc]
      exact hinv

theorem runOps_inv (ops : List LedgerOp) :
    ∀ ni : NodeInfo, ni.Node.isSome = true → boundInvariant ni → opsOk ni ops →
      (runOps ni ops).Node.isSome = true ∧ boundInvariant (runOps ni ops) := by
  induction ops with
  | nil =>
    intro ni hs hinv _
    exact ⟨hs, hinv⟩
  | cons op rest ih =>
    intro ni hs hinv hok
    have hok' : opOk ni op ∧ opsOk (runOp ni op) rest := hok
    have step := runOp_step ni op hs hinv hok'.1
    have tail := ih (runOp ni op) step.1 step.2 hok'.2
    simpa [runOps] using tail

/-!
Claim theorems for the node ledger.
-/

/-- C1 (counterexample to the claim as stated): rebinding a freshly bound
ledger to a node with a different allocatable declaration leaves `Idle + Used`
at the old allocatable while `Allocatable` becomes the new one, so the
invariant does not hold after that completed Bind call. -/
theorem C1_counterexample :
    ¬ boundInvariant (runOps (NewNodeInfo (some exNodeA)) [LedgerOp.bind exNodeB]) := by
  have hstep : runOps (NewNodeInfo (some exNodeA)) [LedgerOp.bind exNodeB] =
      (NewNodeInfo (some exNodeA)).setNode exNodeB := rfl
  rw [hstep, NodeInfo.setNode_of_bound (NewNodeInfo (some exNodeA)) exNodeB exNodeA rfl]
  intro h
  have h2 := congrArg Resource.MilliCPU h
  norm_num [boundInvariant, NewNodeInfo, exNodeA, exNodeB, Resource.add,
    EmptyResource] at h2

/-- C1 (amended): for every sequence of AddTask/RemoveTask/UpdateTask/Bind
calls starting from a freshly bound ledger, in which every Bind supplies a
node whose allocatable declaration equals the ledger's current `Allocatable`,
the equation `Idle + Used = Allocatable` holds after every completed call. -/
theorem C1_conservation (n : NodeSpec) (ops : List LedgerOp)
    (hok : opsOk (NewNodeInfo (some n)) ops) :
    boundInvariant (runOps (NewNodeInfo (some n)) ops) := by
  refine (runOps_inv ops (NewNodeInfo (some n)) rfl ?_ hok).2
  simp only [boundInvariant, NewNodeInfo]
  exact Resource.add_empty n.Allocatable

/-- Witness for C1: a concrete call sequence with a matching rebind keeps the
conservation equation. -/
theorem C1_conservation_witness :
    opsOk (NewNodeInfo (some exNodeA))
      [LedgerOp.add exTask1, LedgerOp.bind exNodeA, LedgerOp.remove exTask1] ∧
    boundInvariant (runOps (NewNodeInfo (some exNodeA))
      [LedgerOp.add exTask1, LedgerOp.bind exNodeA, LedgerOp.remove exTask1]) :=
  ⟨⟨trivial, rfl, trivial, trivial⟩,
   C1_conservation exNodeA _ ⟨trivial, rfl, trivial, trivial⟩⟩

/-- C2: a successful AddTask of an untracked task followed by RemoveTask of
the same task restores Idle, Used and Releasing to their pre-AddTask values. -/
theorem C2_add_remove_round_trip (ni : NodeInfo) (t : TaskInfo)
    (h : ni.Tasks.lookup (PodKey t) = none) :
    (ni.addTask t).2 = none ∧
    (((ni.addTask t).1).removeTask t).1.Idle = ni.Idle ∧
    (((ni.addTask t).1).removeTask t).1.Used = ni.Used ∧
    (((ni.addTask t).1).removeTask t).1.Releasing = ni.Releasing := by
  cases hb : ni.Node with
  | none =>
    rw [NodeInfo.addTask_of_unbound ni t hb h]
    dsimp only
    rw [NodeInfo.removeTask_of_unbound _ t t (by exact hb) (by simp)]
    exact ⟨rfl, rfl, rfl, rfl⟩
  | some n0 =>
    rw [NodeInfo.addTask_of_bound ni t n0 hb h]
    dsimp only
    rw [NodeInfo.removeTask_of_bound _ t t n0 (by exact hb) (by simp)]
    dsimp only
    refine ⟨rfl, Resource.sub_add_cancel ni.Idle t.Resreq,
      Resource.add_sub_cancel ni.Used t.Resreq, ?_⟩
    by_cases hs : t.Status = TaskStatus.Releasing <;>
      simp [hs, Resource.add_sub_cancel]

/-- Witness for C2: the concrete cycle on a bound ledger restores all pools. -/
theorem C2_add_remove_round_trip_witness :
    ((NewNodeInfo (some exNodeA)).Tasks.lookup (PodKey exTaskR) = none) ∧
    ((((NewNodeInfo (some exNodeA)).addTask exTaskR).1).removeTask exTaskR).1.Idle =
      (NewNodeInfo (some exNodeA)).Idle :=
  ⟨rfl, (C2_add_remove_round_trip (NewNodeInfo (some exNodeA)) exTaskR rfl).2.1⟩

/-- C6: AddTask of an already-present task id fails with the duplicate-task
error and returns the ledger unchanged, and RemoveTask of an absent task id
fails with the task-not-found error and returns the ledger unchanged. -/
theorem C6_duplicate_and_missing (ni : NodeInfo) (t u : TaskInfo)
    (hdup : (ni.Tasks.lookup (PodKey t)).isSome = true)
    (hmiss : ni.Tasks.lookup (PodKey u) = none) :
    ni.addTask t = (ni, some s!"task <{t.Namespace}/{t.Name}> already on node <{ni.Name}>") ∧
    ni.removeTask u = (ni, some s!"failed to find task <{u.Namespace}/{u.Name}> on host <{ni.Name}>") :=
  ⟨NodeInfo.addTask_of_mem ni t hdup, NodeInfo.removeTask_of_not_mem ni u hmiss⟩

/-- Witness for C6: on a ledger tracking `exTask1`, re-adding `exTask1`
fails with the duplicate error and removing the absent `exTaskR` fails with
the not-found error, both leaving the ledger unchanged. -/
theorem C6_duplicate_and_missing_witness :
    (((((NewNodeInfo (some exNodeA)).addTask exTask1).1).Tasks.lookup (PodKey exTask1)).isSome = true) ∧
    ((((NewNodeInfo (some exNodeA)).addTask exTask1).1).Tasks.lookup (PodKey exTaskR) = none) ∧
    (((NewNodeInfo (some exNodeA)).addTask exTask1).1).addTask exTask1 =
      ((((NewNodeInfo (some exNodeA)).addTask exTask1).1),
        some "task <ns/t1> already on node <node-a>") :=
  ⟨rfl, rfl,
    (C6_duplicate_and_missing (((NewNodeInfo (some exNodeA)).addTask exTask1).1)
      exTask1 exTaskR rfl rfl).1⟩

/-- C7 (counterexample to the claim as stated): on a bound ledger already
tracking the task, PipelineTask returns early, so Used does not increase by
the (nonzero) request as the claim's bound case asserts for every task. -/
theorem C7_counterexample :
    ¬ (((((NewNodeInfo (some exNodeA)).addTask exTask1).1).pipelineTask exTask1).1.Used =
       (((NewNodeInfo (some exNodeA)).addTask exTask1).1).Used.add exTask1.Resreq) := by
  rw [NodeInfo.pipelineTask_of_mem (((NewNodeInfo (some exNodeA)).addTask exTask1).1)
    exTask1 rfl]
  intro h
  have h2 := congrArg Resource.MilliCPU h
  norm_num [Resource.add, exTask1] at h2

/-- C7 (amended): PipelineTask never changes Idle; on a bound ledger, for a
task not already present, it increases Used by the request and decreases
Releasing by it; on an unbound ledger it changes no pool. -/
theorem C7_pipeline_frame (ni : NodeInfo) (t : TaskInfo) :
    ((ni.pipelineTask t).1).Idle = ni.Idle ∧
    (ni.Node.isSome = true → ni.Tasks.lookup (PodKey t) = none →
      ((ni.pipelineTask t).1).Used = ni.Used.add t.Resreq ∧
      ((ni.pipelineTask t).1).Releasing = ni.Releasing.sub t.Resreq) ∧
    (ni.Node = none →
      ((ni.pipelineTask t).1).Used = ni.Used ∧
      ((ni.pipelineTask t).1).Releasing = ni.Releasing) := by
  refine ⟨?_, ?_, ?_⟩
  · cases hl : ni.Tasks.lookup (PodKey t) with
    | some v => rw [NodeInfo.pipelineTask_of_mem ni t (by rw [hl]; rfl)]
    | none =>
      cases hb : ni.Node with
      | none => rw [NodeInfo.pipelineTask_of_unbound ni t hb hl]
      | some n0 => rw [NodeInfo.pipelineTask_of_bound ni t n0 hb hl]
  · intro hsome hl
    obtain ⟨n0, hb⟩ := Option.isSome_iff_exists.mp hsome
    rw [NodeInfo.pipelineTask_of_bound ni t n0 hb hl]
    exact ⟨rfl, rfl⟩
  · intro hb
    cases hl : ni.Tasks.lookup (PodKey t) with
    | some v =>
      rw [NodeInfo.pipelineTask_of_mem ni t (by rw [hl]; rfl)]
      exact ⟨rfl, rfl⟩
    | none =>
      rw [NodeInfo.pipelineTask_of_unbound ni t hb hl]
      exact ⟨rfl, rfl⟩

/-- Witness for C7: concrete bound and unbound pipeline calls. -/
theorem C7_pipeline_frame_witness :
    ((NewNodeInfo (some exNodeA)).pipelineTask exTask1).1.Used =
      (NewNodeInfo (some exNodeA)).Used.add exTask1.Resreq ∧
    ((NewNodeInfo none).pipelineTask exTask1).1.Used = (NewNodeInfo none).Used :=
  ⟨((C7_pipeline_frame (NewNodeInfo (some exNodeA)) exTask1).2.1 rfl rfl).1,
   ((C7_pipeline_frame (NewNodeInfo none) exTask1).2.2 rfl).1⟩

/-- C10: rebinding an already-bound ledger replaces the declared node fields
(name, node reference, allocatable, capability, labels, unschedulable flag,
taints) with the new node's values and leaves the three pools and the task
map unchanged; the retroactive reconciliation runs only when unbound. -/
theorem C10_rebind_frame (ni : NodeInfo) (node : NodeSpec) (n0 : NodeSpec)
    (hb : ni.Node = some n0) :
    ni.setNode node =
      { ni with
          Name := node.Name
          Node := some node
          Allocatable := node.Allocatable
          Capability := node.Capacity
          Labels := node.Labels
          Unschedulable := node.Unschedulable
          Taints := node.Taints } ∧
    (ni.setNode node).Idle = ni.Idle ∧
    (ni.setNode node).Used = ni.Used ∧
    (ni.setNode node).Releasing = ni.Releasing ∧
    (ni.setNode node).Tasks = ni.Tasks := by
  have h := NodeInfo.setNode_of_bound ni node n0 hb
  refine ⟨h, ?_, ?_, ?_, ?_⟩ <;> rw [h]

/-- Witness for C10: rebinding the fresh `exNodeA` ledger to `exNodeB` keeps
Idle and installs the new allocatable. -/
theorem C10_rebind_frame_witness :
    ((NewNodeInfo (some exNodeA)).setNode exNodeB).Idle = (NewNodeInfo (some exNodeA)).Idle ∧
    ((NewNodeInfo (some exNodeA)).setNode exNodeB).Allocatable = exNodeB.Allocatable :=
  ⟨(C10_rebind_frame (NewNodeInfo (some exNodeA)) exNodeB exNodeA rfl).2.1,
   by rw [(C10_rebind_frame (NewNodeInfo (some exNodeA)) exNodeB exNodeA rfl).1]⟩

/-!
Claim theorems for the quota manager.
-/

/-- C9: `Fits` with no attached backend returns exactly the deny triple with
the backend-missing message, for every job, demand and proposed preemptions,
performing no other admission step. -/
theorem C9_fits_no_backend (qm : QuotaManager) (aw : AppWrapper)
    (awResDemands : Resource) (pp : List AppWrapper)
    (h : qm.quotaManagerBackend = none) :
    Fits qm aw awResDemands pp = (false, [], "No quota manager backend exists") := by
  unfold Fits
  rw [h]

/-- Witness for C9: the concrete backend-less manager. -/
theorem C9_fits_no_backend_witness :
    Fits exQmNoBackend exAwA EmptyResource [] = (false, [], "No quota manager backend exists") :=
  C9_fits_no_backend exQmNoBackend exAwA EmptyResource [] rfl

/-- C5: with a backend attached, `Fits` short-circuits to the maintenance
denial exactly when the backend mode is Maintenance and initialization has
completed; in particular, in maintenance mode during the initialization /
replay window the call proceeds through the normal admission path. -/
theorem C5_maintenance_gate (qm : QuotaManager) (b : Backend) (aw : AppWrapper)
    (awResDemands : Resource) (pp : List AppWrapper)
    (h : qm.quotaManagerBackend = some b) :
    Fits qm aw awResDemands pp =
      (if b.mode == Mode.Maintenance && qm.initializationDone then
        (false, [], "Quota Manager backend in maintenance mode")
      else fitsMain qm b aw awResDemands) ∧
    (b.mode = Mode.Maintenance → qm.initializationDone = false →
      Fits qm aw awResDemands pp = fitsMain qm b aw awResDemands) := by
  constructor
  · unfold Fits
    rw [h]
  · intro hm hi
    unfold Fits
    rw [h]
    simp [hm, hi]

/-- Witness for C5: denial in maintenance mode after initialization, and
pass-through to the normal path during the replay window. -/
theorem C5_maintenance_gate_witness :
    Fits exQmMaint exAwA EmptyResource [] =
      (false, [], "Quota Manager backend in maintenance mode") ∧
    Fits exQmMaintReplay exAwA EmptyResource [] =
      fitsMain exQmMaintReplay exBackendMaint exAwA EmptyResource :=
  ⟨by
    rw [(C5_maintenance_gate exQmMaint exBackendMaint exAwA EmptyResource [] rfl).1]
    rfl,
   (C5_maintenance_gate exQmMaintReplay exBackendMaint exAwA EmptyResource [] rfl).2 rfl rfl⟩

/-- C8: with a backend attached and a well-formed job id, `Release` performs
the forest deallocation step and then the consumer-removal step, and returns
exactly the deallocation outcome, whatever the removal outcome is. -/
theorem C8_release_best_effort (qm : QuotaManager) (b : Backend) (aw : AppWrapper)
    (hb : qm.quotaManagerBackend = some b)
    (hid : (CreateId aw.Namespace aw.Name).length > 0) :
    Release qm aw =
      (b.deAllocateForestResult QuotaManagerForestName (CreateId aw.Namespace aw.Name),
       [BackendCall.deAllocateForest QuotaManagerForestName (CreateId aw.Namespace aw.Name),
        BackendCall.removeConsumer (CreateId aw.Namespace aw.Name)]) := by
  unfold Release
  rw [hb]
  simp only []
  rw [if_neg (by omega)]

/-- Witness for C8: releasing the concrete (never-admitted) job performs both
backend steps and returns the deallocation outcome. -/
theorem C8_release_best_effort_witness :
    Release exQmAB exAwA =
      (true,
       [BackendCall.deAllocateForest QuotaManagerForestName "ns/job1",
        BackendCall.removeConsumer "ns/job1"]) := by
  rw [C8_release_best_effort exQmAB exBackendAB exAwA rfl (by decide)]
  rfl

/-- C4: a fractional demand strictly above `MaxInt` is clamped to `MaxInt`
with a non-fatal overflow diagnostic, the clamped value still lands in the
per-tree demand map of the consumer request built by `buildRequest` (which
succeeds), and a demand not above `MaxInt` is passed through truncated to an
integer with no diagnostic. -/
theorem C4_demand_overflow_clamp (d : ℚ) :
    (d > (MaxInt : ℚ) →
      convertFloat64Demand d =
        (MaxInt, some ("demand " ++ toString d ++
          " is larger than Max Quota Management Backend size, resetting demand to " ++
          toString MaxInt)) ∧
      (getQuotaTreeResourceTypesDemands { MilliCPU := d, Memory := 0, GPU := 0 } ["cpu"]).1 =
        [("cpu", MaxInt)] ∧
      ((getQuotaTreeResourceTypesDemands { MilliCPU := d, Memory := 0, GPU := 0 } ["cpu"]).2).isSome = true ∧
      buildRequest exQmA exBackendA exAwA { MilliCPU := d, Memory := 0, GPU := 0 } =
        (some exConsumerMax, none)) ∧
    (¬ d > (MaxInt : ℚ) →
      convertFloat64Demand d = (truncQ d, none)) := by
  constructor
  · intro h
    have hconv : convertFloat64Demand d =
        (MaxInt, some ("demand " ++ toString d ++
          " is larger than Max Quota Management Backend size, resetting demand to " ++
          toString MaxInt)) := by
      unfold convertFloat64Demand
      rw [if_pos h]
    have hreq : (getQuotaTreeResourceTypesDemands
        { MilliCPU := d, Memory := 0, GPU := 0 } ["cpu"]).1 = [("cpu", MaxInt)] := by
      rw [show (getQuotaTreeResourceTypesDemands
            { MilliCPU := d, Memory := 0, GPU := 0 } ["cpu"]).1 =
          mapInsert [] "cpu" (convertFloat64Demand d).1 from rfl, hconv]
      rfl
    refine ⟨hconv, hreq, ?_, ?_⟩
    · rw [show (getQuotaTreeResourceTypesDemands
            { MilliCPU := d, Memory := 0, GPU := 0 } ["cpu"]).2 =
          (match (convertFloat64Demand d).2 with
           | some ce => chainErr none ("resource type: " ++ "cpu" ++ " " ++ ce)
           | none => none) from rfl, hconv]
      rfl
    · rw [show buildRequest exQmA exBackendA exAwA { MilliCPU := d, Memory := 0, GPU := 0 } =
          (some { consumer :=
            { Kind := DefaultConsumerKind
              Spec :=
              { ID := "ns/job1"
                Trees :=
                [{ ID := "ns/job1"
                   TreeName := "A"
                   GroupID := "group1"
                   Request := (getQuotaTreeResourceTypesDemands
                     { MilliCPU := d, Memory := 0, GPU := 0 } ["cpu"]).1
                   Priority := 0
                   CType := 0
                   UnPreemptable := false }] } } }, none) from rfl, hreq]
      rfl
  · intro h
    unfold convertFloat64Demand
    rw [if_neg h]

/-- Witness for C4: the demand `MaxInt + 1` is clamped and still submitted,
and the demand `5` passes through untouched. -/
theorem C4_demand_overflow_clamp_witness :
    convertFloat64Demand ((MaxInt : ℚ) + 1) =
      (MaxInt, some ("demand " ++ toString ((MaxInt : ℚ) + 1) ++
        " is larger than Max Quota Management Backend size, resetting demand to " ++
        toString MaxInt)) ∧
    buildRequest exQmA exBackendA exAwA
        { MilliCPU := (MaxInt : ℚ) + 1, Memory := 0, GPU := 0 } =
      (some exConsumerMax, none) ∧
    convertFloat64Demand 5 = (truncQ 5, none) :=
  ⟨((C4_demand_overflow_clamp ((MaxInt : ℚ) + 1)).1 (lt_add_one _)).1,
   ((C4_demand_overflow_clamp ((MaxInt : ℚ) + 1)).1 (lt_add_one _)).2.2.2,
   (C4_demand_overflow_clamp 5).2 (by norm_num [MaxInt])⟩

/-- C3: when a job's labels cover only a strict subset of the known quota
trees, `getQuotaDesignation` fails with a message that comma-joins exactly
the missing tree names (each missing tree and no other); in particular for a
job labeled only for tree `A` with known trees `A` and `B` the message names
exactly `B`, and `Fits` denies with that message. -/
theorem C3_missing_designation (b : Backend) (aw : AppWrapper)
    (hnodup : (aw.labels.map Prod.fst).Nodup)
    (hmiss : ∃ t ∈ b.treeNames, ∀ kv ∈ aw.labels, kv.1 ≠ t) :
    ((getQuotaDesignation b aw).2.2 =
      some ("Missing required quota designation: " ++
        String.intercalate ", "
          (b.treeNames.filter (fun tn => aw.labels.all (fun kv => !(kv.1 == tn)))) ++ ".")) ∧
    (∀ tn, tn ∈ b.treeNames.filter (fun tn => aw.labels.all (fun kv => !(kv.1 == tn))) ↔
      tn ∈ b.treeNames ∧ ∀ kv ∈ aw.labels, kv.1 ≠ tn) ∧
    b.treeNames.filter (fun tn => aw.labels.all (fun kv => !(kv.1 == tn))) ≠ [] ∧
    (getQuotaDesignation exBackendAB exAwA).2.2 =
      some "Missing required quota designation: B." ∧
    Fits exQmAB exAwA EmptyResource [] =
      (false, [], "Missing required quota designation: B.") := by
  obtain ⟨t, ht, htmiss⟩ := hmiss
  have hmem : ∀ tn, tn ∈ b.treeNames.filter (fun tn => aw.labels.all (fun kv => !(kv.1 == tn))) ↔
      tn ∈ b.treeNames ∧ ∀ kv ∈ aw.labels, kv.1 ≠ tn := by
    intro tn
    simp [List.mem_filter, List.all_eq_true]
  refine ⟨?_, hmem, ?_, rfl, rfl⟩
  · have h0 : ¬ (b.treeNames.length ≤ 0) := by
      have := List.length_pos.mpr (List.ne_nil_of_mem ht)
      omega
    set P : String × String → Bool :=
      fun kv => isValidQuota { GroupContext := kv.1, GroupId := kv.2 } b.treeNames with hP
    have hkeymem : ∀ kv ∈ aw.labels, P kv = true → kv.1 ∈ b.treeNames := by
      intro kv _ hv
      rw [hP] at hv
      simp only [isValidQuota, List.any_eq_true, beq_iff_eq] at hv
      obtain ⟨tn, htn, rfl⟩ := hv
      exact htn
    have hvalid_of_mem : ∀ kv ∈ aw.labels, kv.1 ∈ b.treeNames → P kv = true := by
      intro kv _ hv
      rw [hP]
      simp only [isValidQuota, List.any_eq_true, beq_iff_eq]
      exact ⟨kv.1, hv, rfl⟩
    have hany : ∀ tn ∈ b.treeNames,
        (((aw.labels.filter P).map
          (fun kv => ({ GroupContext := kv.1, GroupId := kv.2 } : QuotaGroup))).any
          (fun g => g.GroupContext == tn)) = aw.labels.any (fun kv => kv.1 == tn) := by
      intro tn htn
      rw [Bool.eq_iff_iff]
      simp only [List.any_eq_true, List.mem_map, List.mem_filter]
      constructor
      · rintro ⟨g, ⟨kv, ⟨hkvmem, hkvvalid⟩, rfl⟩, hg⟩
        exact ⟨kv, hkvmem, hg⟩
      · rintro ⟨kv, hkvmem, hkv⟩
        refine ⟨{ GroupContext := kv.1, GroupId := kv.2 }, ⟨kv, ⟨hkvmem, ?_⟩, rfl⟩, hkv⟩
        have hkv' : kv.1 = tn := by simpa using hkv
        exact hvalid_of_mem kv hkvmem (hkv' ▸ htn)
    have hpt : ∀ tn ∈ b.treeNames,
        (!(((aw.labels.filter P).map
          (fun kv => ({ GroupContext := kv.1, GroupId := kv.2 } : QuotaGroup))).any
          (fun g => g.GroupContext == tn))) = aw.labels.all (fun kv => !(kv.1 == tn)) := by
      intro tn htn
      rw [hany tn htn, List.all_eq_not_any_not]
      simp
    have hfilter := List.filter_congr hpt
    have hlt : ((aw.labels.filter P).map
        (fun kv => ({ GroupContext := kv.1, GroupId := kv.2 } : QuotaGroup))).length <
        b.treeNames.length := by
      rw [List.length_map]
      have hkeysnd : ((aw.labels.filter P).map Prod.fst).Nodup :=
        hnodup.sublist ((List.filter_sublist aw.labels).map Prod.fst)
      have hsub : ((aw.labels.filter P).map Prod.fst).toFinset ⊆
          b.treeNames.toFinset.erase t := by
        intro k hk
        rw [List.mem_toFinset, List.mem_map] at hk
        obtain ⟨kv, hkvmem, rfl⟩ := hk
        rw [List.mem_filter] at hkvmem
        rw [Finset.mem_erase, List.mem_toFinset]
        exact ⟨htmiss kv hkvmem.1, hkeymem kv hkvmem.1 hkvmem.2⟩
      calc (aw.labels.filter P).length
          = ((aw.labels.filter P).map Prod.fst).length := (List.length_map _ _).symm
        _ = ((aw.labels.filter P).map Prod.fst).toFinset.card :=
            (List.toFinset_card_of_nodup hkeysnd).symm
        _ ≤ (b.treeNames.toFinset.erase t).card := Finset.card_le_card hsub
        _ < b.treeNames.toFinset.card := Finset.card_erase_lt_of_mem (List.mem_toFinset.mpr ht)
        _ ≤ b.treeNames.length := List.toFinset_card_le b.treeNames
    simp only [getQuotaDesignation]
    rw [if_neg h0, if_pos hlt, hfilter]
    have hlen : ("Missing required quota designation: " ++
        String.intercalate ", "
          (b.treeNames.filter (fun tn => aw.labels.all (fun kv => !(kv.1 == tn))))).length > 0 := by
      rw [String.length_append]
      have : ("Missing required quota designation: " : String).length = 36 := rfl
      omega
    rw [if_pos hlen]
  · refine List.ne_nil_of_mem ((hmem t).mpr ⟨ht, htmiss⟩)

/-- Witness for C3: the concrete `A`-labeled job against trees `A, B`. -/
theorem C3_missing_designation_witness :
    ((exAwA.labels.map Prod.fst).Nodup) ∧
    (getQuotaDesignation exBackendAB exAwA).2.2 =
      some "Missing required quota designation: B." :=
  ⟨by decide,
   (C3_missing_designation exBackendAB exAwA (by decide) (by decide)).2.2.2.1⟩
